import Mathlib

/-!
Verification development for the Fawkes robot-control middleware kernel.

Part 1 models the BlackBoard ("Record Store"), the plugin loader and the
cycle scheduler.  Their implementations are not part of the source corpus
(only plugin code calling them is), so these definitions are modelled from
the specification, as linearized sequential state machines.

Part 2 embeds the SQLite configuration backend
(src/libs/config/sqlite.cpp), which is part of the source corpus.
-/

namespace Fawkes

/-- Modelled from the spec: a record ("Interface") is identified by
(type-name, instance-id), unique within the store. -/
structure RecordId where
  ty  : String
  iid : String
deriving DecidableEq

/-- Modelled from the spec: a Message is an ordered, strongly typed command
value enqueued by a holder of a record handle. -/
structure Msg where
  sender  : Nat
  payload : Int
deriving DecidableEq

/-- Modelled from the spec: a record carries a schema hash, field values, a
monotonically increasing write sequence number, a last-write timestamp and
an attached FIFO command queue. -/
structure Record where
  schema_hash : Nat
  values      : List Int
  seq         : Nat
  stamp       : Nat
  queue       : List Msg
deriving DecidableEq

/-- Modelled from the spec: a handle is a capability token granting read or
write access to a record. -/
structure Handle where
  hid    : Nat
  rid    : RecordId
  writer : Bool
deriving DecidableEq

/-- Modelled from the spec: the Record Store error taxonomy. -/
inductive BBError
  | AlreadyHasWriter
  | SchemaMismatch
  | NotFound
  | InvalidHandle
deriving DecidableEq

/-- Modelled from the spec: notifications fired by the Notification
Registry on record creation, content change and destruction.  A data-change
notification carries the published sequence number. -/
inductive Notif
  | created (rid : RecordId)
  | dataChanged (rid : RecordId) (seq : Nat)
  | destroyed (rid : RecordId)
deriving DecidableEq

/-- Modelled from the spec: the Record Store state, linearized.  The
notification list is the trace of fired notifications, oldest first. -/
structure BlackBoard where
  records    : List (RecordId × Record)
  handles    : List Handle
  nextHandle : Nat
  clock      : Nat
  notifs     : List Notif
deriving DecidableEq

/-- Look up a record by id (first match; ids are unique in a well-formed
store). -/
def findRecord : List (RecordId × Record) → RecordId → Option Record
  | [], _ => none
  | (r, rec) :: rest, rid => if r = rid then some rec else findRecord rest rid

/-- Replace the record stored under `rid` (append if absent). -/
def setRecord : List (RecordId × Record) → RecordId → Record → List (RecordId × Record)
  | [], rid, rec => [(rid, rec)]
  | (r, old) :: rest, rid, rec =>
      if r = rid then (rid, rec) :: rest else (r, old) :: setRecord rest rid rec

/-- Remove the record stored under `rid`. -/
def removeRecord : List (RecordId × Record) → RecordId → List (RecordId × Record)
  | [], _ => []
  | (r, old) :: rest, rid =>
      if r = rid then removeRecord rest rid else (r, old) :: removeRecord rest rid

/-- Modelled from the spec: whether a writer handle is currently open for
the given record. -/
def BlackBoard.hasWriter (bb : BlackBoard) (rid : RecordId) : Bool :=
  bb.handles.any (fun h => decide (h.rid = rid) && h.writer)

/-- Look up an open handle by its id. -/
def BlackBoard.findHandle (bb : BlackBoard) (hid : Nat) : Option Handle :=
  bb.handles.find? (fun h => decide (h.hid = hid))

/-- Modelled from the spec: `open_for_writing(type, id, schema_hash)`
creates the record if absent; fails with AlreadyHasWriter if a writer
handle is already open for that (type,id), or with SchemaMismatch if the
caller's schema hash disagrees with an existing record.  On error the
store is left unchanged. -/
def BlackBoard.open_for_writing (bb : BlackBoard) (rid : RecordId) (hash : Nat) :
    Except BBError Nat × BlackBoard :=
  if bb.hasWriter rid then (.error .AlreadyHasWriter, bb)
  else
    match findRecord bb.records rid with
    | some rec =>
        if rec.schema_hash ≠ hash then (.error .SchemaMismatch, bb)
        else
          (.ok bb.nextHandle,
            { bb with handles := ⟨bb.nextHandle, rid, true⟩ :: bb.handles,
                      nextHandle := bb.nextHandle + 1 })
    | none =>
        (.ok bb.nextHandle,
          { bb with
              records := (rid, ⟨hash, [], 0, bb.clock, []⟩) :: bb.records,
              handles := ⟨bb.nextHandle, rid, true⟩ :: bb.handles,
              nextHandle := bb.nextHandle + 1,
              notifs := bb.notifs ++ [.created rid] })

/-- Modelled from the spec: `open_for_reading(type, id, schema_hash)`
fails with NotFound when no record exists for (type,id) — it never creates
a record — and with SchemaMismatch on a hash disagreement. -/
def BlackBoard.open_for_reading (bb : BlackBoard) (rid : RecordId) (hash : Nat) :
    Except BBError Nat × BlackBoard :=
  match findRecord bb.records rid with
  | none => (.error .NotFound, bb)
  | some rec =>
      if rec.schema_hash ≠ hash then (.error .SchemaMismatch, bb)
      else
        (.ok bb.nextHandle,
          { bb with handles := ⟨bb.nextHandle, rid, false⟩ :: bb.handles,
                    nextHandle := bb.nextHandle + 1 })

/-- Modelled from the spec: `read(handle)` copies the current field values
(and the sequence number of the snapshot); a reader never mutates record
content.  Operations on an invalid handle fail with InvalidHandle. -/
def BlackBoard.read (bb : BlackBoard) (hid : Nat) :
    Except BBError (List Int × Nat) × BlackBoard :=
  match bb.findHandle hid with
  | none => (.error .InvalidHandle, bb)
  | some h =>
      match findRecord bb.records h.rid with
      | none => (.error .InvalidHandle, bb)
      | some rec => (.ok (rec.values, rec.seq), bb)

/-- Modelled from the spec: `write(handle, values)` publishes new field
values, increments the sequence number, timestamps, then fires exactly one
"data changed" notification; the notification is appended to the state in
which the published values are already visible. -/
def BlackBoard.write (bb : BlackBoard) (hid : Nat) (v : List Int) :
    Except BBError Unit × BlackBoard :=
  match bb.findHandle hid with
  | none => (.error .InvalidHandle, bb)
  | some h =>
      if !h.writer then (.error .InvalidHandle, bb)
      else
        match findRecord bb.records h.rid with
        | none => (.error .InvalidHandle, bb)
        | some rec =>
            (.ok (),
              { bb with
                  records := setRecord bb.records h.rid
                               ({ rec with values := v, seq := rec.seq + 1, stamp := bb.clock }),
                  notifs := bb.notifs ++ [.dataChanged h.rid (rec.seq + 1)] })

/-- Modelled from the spec: `enqueue(handle, message)` appends the message
to the record's FIFO command queue; any holder of a handle (reader or
writer) may enqueue. -/
def BlackBoard.msgq_enqueue (bb : BlackBoard) (hid : Nat) (m : Msg) :
    Except BBError Unit × BlackBoard :=
  match bb.findHandle hid with
  | none => (.error .InvalidHandle, bb)
  | some h =>
      match findRecord bb.records h.rid with
      | none => (.error .InvalidHandle, bb)
      | some rec =>
          (.ok (),
            { bb with records := setRecord bb.records h.rid
                        ({ rec with queue := rec.queue ++ [m] }) })

/-- Modelled from the spec: `dequeue_all(writer_handle)` returns the queued
messages in FIFO order and empties the queue; only the record's writer-side
thread drains. -/
def BlackBoard.dequeue_all (bb : BlackBoard) (hid : Nat) :
    Except BBError (List Msg) × BlackBoard :=
  match bb.findHandle hid with
  | none => (.error .InvalidHandle, bb)
  | some h =>
      if !h.writer then (.error .InvalidHandle, bb)
      else
        match findRecord bb.records h.rid with
        | none => (.error .InvalidHandle, bb)
        | some rec =>
            (.ok rec.queue,
              { bb with records := setRecord bb.records h.rid ({ rec with queue := [] }) })

/-- Modelled from the spec: `close(handle)` releases the handle; if no
other handle keeps the record alive, the record is removed and a
"destroyed" notification fires. -/
def BlackBoard.close (bb : BlackBoard) (hid : Nat) :
    Except BBError Unit × BlackBoard :=
  match bb.findHandle hid with
  | none => (.error .InvalidHandle, bb)
  | some h =>
      if (bb.handles.filter (fun g => decide (g.hid ≠ hid))).any
           (fun g => decide (g.rid = h.rid)) then
        (.ok (), { bb with handles := bb.handles.filter (fun g => decide (g.hid ≠ hid)) })
      else
        (.ok (),
          { bb with
              handles := bb.handles.filter (fun g => decide (g.hid ≠ hid)),
              records := removeRecord bb.records h.rid,
              notifs := bb.notifs ++ [.destroyed h.rid] })

/-- Modelled from the spec: the operation alphabet of the Record Store. -/
inductive BBOp
  | openW (rid : RecordId) (hash : Nat)
  | openR (rid : RecordId) (hash : Nat)
  | writeOp (hid : Nat) (v : List Int)
  | readOp (hid : Nat)
  | enq (hid : Nat) (m : Msg)
  | deq (hid : Nat)
  | closeOp (hid : Nat)
deriving DecidableEq

/-- State transition of a single Record Store operation (result discarded). -/
def BlackBoard.step (bb : BlackBoard) : BBOp → BlackBoard
  | .openW rid hash => (bb.open_for_writing rid hash).2
  | .openR rid hash => (bb.open_for_reading rid hash).2
  | .writeOp hid v  => (bb.write hid v).2
  | .readOp hid     => (bb.read hid).2
  | .enq hid m      => (bb.msgq_enqueue hid m).2
  | .deq hid        => (bb.dequeue_all hid).2
  | .closeOp hid    => (bb.close hid).2

/-- Number of writer handles for a given record in a handle table. -/
def writerCountH (hs : List Handle) (rid : RecordId) : Nat :=
  (hs.filter (fun h => decide (h.rid = rid) && h.writer)).length

/-- Number of open writer handles for a given record. -/
def writerCount (bb : BlackBoard) (rid : RecordId) : Nat :=
  writerCountH bb.handles rid

/-- Modelled from the spec: the single-writer invariant — at most one
writer handle per record at any instant. -/
def WriterUnique (bb : BlackBoard) : Prop :=
  ∀ rid, writerCount bb rid ≤ 1

/-- Modelled from the spec: for every record in the store, one "data
changed" notification has fired for each published sequence number up to
the record's current one. -/
def NotifComplete (bb : BlackBoard) : Prop :=
  ∀ rid rec, findRecord bb.records rid = some rec →
    ∀ k, 0 < k → k ≤ rec.seq → Notif.dataChanged rid k ∈ bb.notifs

/-- Apply a list of (handle, message) enqueue requests in order. -/
def enqueueAll (bb : BlackBoard) : List (Nat × Msg) → BlackBoard
  | [] => bb
  | (hid, m) :: rest => enqueueAll (bb.msgq_enqueue hid m).2 rest

/-! ### Plugin loader and aspect injector, modelled from the spec -/

/-- Modelled from the spec: a Thread declaration — name, hook (scheduling
phase), declared capability set (aspects), the records its init opens and
the notification subscriptions it registers. -/
structure ThreadDecl where
  tname   : String
  hook    : String
  aspects : List String
  opens   : List RecordId
  subs    : List String
deriving DecidableEq

/-- Modelled from the spec: a Plugin is a named bundle of Threads. -/
structure Plugin where
  pname   : String
  threads : List ThreadDecl
deriving DecidableEq

/-- Modelled from the spec: the load-path error taxonomy. -/
inductive LoadError
  | LoadFailed
  | AlreadyLoaded
  | UnmetAspect (aname : String)
deriving DecidableEq

/-- Modelled from the spec: the process-wide registration state touched by
plugin activation — scheduler registrations, notification-registry
subscriptions and record-store ownerships, each keyed by plugin name. -/
structure ProcessState where
  capabilities : List String
  sched        : List (String × ThreadDecl)
  observers    : List (String × String)
  store_owners : List (String × RecordId)
  loaded       : List String
deriving DecidableEq

/-- Modelled from the spec: registering one Thread wires it into the
scheduler, the record store and the notification registry. -/
def registerThread (st : ProcessState) (pn : String) (t : ThreadDecl) : ProcessState :=
  { st with
      sched := st.sched ++ [(pn, t)],
      store_owners := st.store_owners ++ t.opens.map (fun r => (pn, r)),
      observers := st.observers ++ t.subs.map (fun s => (pn, s)) }

/-- Remove every registration owned by the named plugin from the
scheduler, the notification registry and the record store. -/
def purgePlugin (st : ProcessState) (pn : String) : ProcessState :=
  { st with
      sched := st.sched.filter (fun p => decide (p.1 ≠ pn)),
      observers := st.observers.filter (fun p => decide (p.1 ≠ pn)),
      store_owners := st.store_owners.filter (fun p => decide (p.1 ≠ pn)) }

/-- Modelled from the spec: initialize the plugin's Threads one by one; a
Thread requesting a capability the process does not expose fails with
UnmetAspect, leaving the partial registrations of earlier Threads in the
returned state (to be rolled back by `load`). -/
def initThreads (st : ProcessState) (pn : String) :
    List ThreadDecl → Except (LoadError × ProcessState) ProcessState
  | [] => .ok st
  | t :: rest =>
      match t.aspects.find? (fun a => !st.capabilities.contains a) with
      | some a => .error (.UnmetAspect a, st)
      | none => initThreads (registerThread st pn t) pn rest

/-- Modelled from the spec: `load(name)` invokes the plugin factory (a
throwing factory is modelled as `none`), initializes and registers its
Threads, and on any failure rolls the partial registrations back so that
activation is all-or-nothing. -/
def load (st : ProcessState) (factory : Option Plugin) (pn : String) :
    Except LoadError Plugin × ProcessState :=
  if st.loaded.contains pn then (.error .AlreadyLoaded, st)
  else
    match factory with
    | none => (.error .LoadFailed, st)
    | some pl =>
        match initThreads st pn pl.threads with
        | .error (e, st2) => (.error e, purgePlugin st2 pn)
        | .ok st2 => (.ok pl, { st2 with loaded := pn :: st2.loaded })

/-- No registration in the process state mentions the given plugin. -/
def pluginFree (st : ProcessState) (pn : String) : Prop :=
  st.loaded.contains pn = false ∧
  (∀ p ∈ st.sched, p.1 ≠ pn) ∧
  (∀ p ∈ st.observers, p.1 ≠ pn) ∧
  (∀ p ∈ st.store_owners, p.1 ≠ pn)

/-! ### Cycle scheduler, modelled from the spec -/

/-- Modelled from the spec: a phase-scoped thread, reduced to the ordered
record writes its iterate callback performs. -/
structure CycleThread where
  tname  : String
  writes : List (RecordId × List Int)
deriving DecidableEq

/-- A linearized view of the blackboard contents: newest binding first. -/
abbrev BBStore := List (RecordId × List Int)

/-- Perform one record write (newest binding shadows older ones). -/
def storeWrite (s : BBStore) (w : RecordId × List Int) : BBStore := w :: s

/-- Current value of a record in the store view. -/
def storeGet (s : BBStore) (r : RecordId) : Option (List Int) :=
  (s.find? (fun p => decide (p.1 = r))).map (fun p => p.2)

/-- Apply a list of writes in order. -/
def applyWrites (s : BBStore) (ws : List (RecordId × List Int)) : BBStore :=
  ws.foldl storeWrite s

/-- The last value written to `r` by the given write list, if any. -/
def lastWrite (ws : List (RecordId × List Int)) (r : RecordId) : Option (List Int) :=
  (ws.reverse.find? (fun p => decide (p.1 = r))).map (fun p => p.2)

/-- All writes performed by the threads of one phase, in linearization
order. -/
def phaseWrites (ph : List CycleThread) : List (RecordId × List Int) :=
  (ph.map (fun t => t.writes)).flatten

/-- Modelled from the spec: a phase runs all of its threads to completion
before the next phase starts (linearized within the phase). -/
def runPhase (s : BBStore) (ph : List CycleThread) : BBStore :=
  ph.foldl (fun s t => applyWrites s t.writes) s

/-- Modelled from the spec: one cycle traverses the configured phases in
order, serialized by barriers. -/
def runCycle (s : BBStore) (phases : List (List CycleThread)) : BBStore :=
  phases.foldl runPhase s

/-- The blackboard contents handed to the threads of phase `j`: everything
the phases before `j` wrote in this cycle. -/
def stateAtPhase (s : BBStore) (phases : List (List CycleThread)) (j : Nat) : BBStore :=
  (phases.take j).foldl runPhase s

/-- Modelled from the spec: scheduler trace events — a thread of a given
phase starting or returning from its iterate callback. -/
inductive Ev
  | start  (phase : Nat) (tname : String)
  | finish (phase : Nat) (tname : String)
deriving DecidableEq

/-- The phase an event belongs to. -/
def Ev.phase : Ev → Nat
  | .start p _ => p
  | .finish p _ => p

/-- Modelled from the spec: a barrier-ordered cycle trace is a
concatenation of per-phase segments, one per phase in phase order, each
segment holding only events (any within-phase interleaving) of its own
phase. -/
inductive Tagged : Nat → List (List Ev) → Prop
  | nil (n : Nat) : Tagged n []
  | cons (n : Nat) (seg : List Ev) (rest : List (List Ev)) :
      (∀ e ∈ seg, Ev.phase e = n) → Tagged (n + 1) rest → Tagged n (seg :: rest)

/-! ### SQLite configuration backend, embedded from src/libs/config/sqlite.cpp -/

/-- A value stored in the `value` column.  The embedding distinguishes the
storage class it was bound with: `sqlite3_bind_int` (vint),
`sqlite3_bind_double` (vreal; the `float` → `double` promotion at the bind
site is exact, so the rational carries the float's exact value) and
`sqlite3_bind_text` (vtext). -/
inductive SqlValue
  | vint  (i : Int)
  | vreal (q : Rat)
  | vtext (s : String)
deriving DecidableEq

/-- One row of a config table: the `type` tag and the `value` column (the
`path` column is the association key, the `comment` column is ignored by
every operation embedded here). -/
structure ConfigEntry where
  ctype : String
  value : SqlValue
deriving DecidableEq

/-- A config table: association list from `path` (the PRIMARY KEY) to row. -/
abbrev Table := List (String × ConfigEntry)

/-- The two attached databases of SQLiteConfiguration: the host-specific
`config` table and the `defaults.config` table. -/
structure SQLiteConfiguration where
  host     : Table
  defaults : Table
deriving DecidableEq

/-- Row lookup by path (PRIMARY KEY, so at most one row matches). -/
def findRow : Table → String → Option ConfigEntry
  | [], _ => none
  | (p, e) :: rest, path => if p = path then some e else findRow rest path

/-- `sqlite3_column_int` at the SQLite boundary: an INTEGER value is
returned unchanged (every value bound through this API fits in a C int);
a REAL is cast by truncation, TEXT without numeric prefix reads as 0. -/
def columnInt : SqlValue → Int
  | .vint i  => i
  | .vreal q => q.num / (q.den : Int)
  | .vtext _ => 0

/-- `sqlite3_column_double` at the SQLite boundary. -/
def columnDouble : SqlValue → Rat
  | .vint i  => (i : Rat)
  | .vreal q => q
  | .vtext _ => 0

/-- `sqlite3_column_text` at the SQLite boundary. -/
def columnText : SqlValue → String
  | .vint i  => toString i
  | .vreal q => toString q
  | .vtext s => s

/-- Embeds SQL_SELECT_VALUE_TYPE (sqlite.cpp lines 79-83): the host
`config` row for the path if present, otherwise the `defaults.config` row
(whose NOT EXISTS clause excludes paths present in the host table), with
its `is_default` flag. -/
def selectValueType (c : SQLiteConfiguration) (path : String) : Option (ConfigEntry × Bool) :=
  match findRow c.host path with
  | some e => some (e, false)
  | none => (findRow c.defaults path).map (fun e => (e, true))

/-- Errors thrown by the embedded configuration operations. -/
inductive ConfigError
  | EntryNotFound (path : String)
  | TypeMismatch (path : String) (actual : String) (requested : String)
deriving DecidableEq

/-- Embeds SQLiteConfiguration::get_value (sqlite.cpp lines 842-876): runs
SQL_SELECT_VALUE_TYPE; no row throws ConfigEntryNotFoundException, a row
whose `type` differs from the requested one throws
ConfigTypeMismatchException. -/
def get_value_typed (c : SQLiteConfiguration) (path ctype : String) :
    Except ConfigError ConfigEntry :=
  match selectValueType c path with
  | none => .error (.EntryNotFound path)
  | some (e, _) =>
      if e.ctype ≠ ctype then .error (.TypeMismatch path e.ctype ctype)
      else .ok e

/-- Embeds SQLiteConfiguration::get_float (lines 883-899); the
`double` → `float` cast of a value that was bound from a float is exact. -/
def get_float (c : SQLiteConfiguration) (path : String) : Except ConfigError Rat :=
  (get_value_typed c path "float").map (fun e => columnDouble e.value)

/-- Embeds SQLiteConfiguration::get_uint (lines 906-926): reads the column
as int and throws ConfigTypeMismatchException(path, "int", "unsigned int")
when the value is negative (exceptions of get_value propagate). -/
def get_uint (c : SQLiteConfiguration) (path : String) : Except ConfigError Int :=
  match get_value_typed c path "unsigned int" with
  | .error e => .error e
  | .ok e =>
      if columnInt e.value < 0 then .error (.TypeMismatch path "int" "unsigned int")
      else .ok (columnInt e.value)

/-- Embeds SQLiteConfiguration::get_int (lines 933-949). -/
def get_int (c : SQLiteConfiguration) (path : String) : Except ConfigError Int :=
  (get_value_typed c path "int").map (fun e => columnInt e.value)

/-- Embeds SQLiteConfiguration::get_bool (lines 956-972): `(i != 0)`. -/
def get_bool (c : SQLiteConfiguration) (path : String) : Except ConfigError Bool :=
  (get_value_typed c path "bool").map (fun e => decide (columnInt e.value ≠ 0))

/-- Embeds SQLiteConfiguration::get_string (lines 978-996). -/
def get_string (c : SQLiteConfiguration) (path : String) : Except ConfigError String :=
  (get_value_typed c path "string").map (fun e => columnText e.value)

/-- Embeds SQLiteConfiguration::exists (lines 684-709): SQL_SELECT_TYPE
has the same host-UNION-defaults row set as SQL_SELECT_VALUE_TYPE, and
`exists` is whether stepping it yields a row. -/
def path_exists (c : SQLiteConfiguration) (path : String) : Bool :=
  (selectValueType c path).isSome

/-- Embeds SQL_UPDATE_VALUE ("UPDATE config SET value=? WHERE path=?"):
returns the updated table and the number of changed rows
(`sqlite3_changes`).  Only the `value` column is set; the `type` tag of an
existing row is kept. -/
def updateValue : Table → String → SqlValue → Table × Nat
  | [], _, _ => ([], 0)
  | (p, e) :: rest, path, v =>
      let r := updateValue rest path v
      if p = path then ((p, { e with value := v }) :: r.1, r.2 + 1)
      else ((p, e) :: r.1, r.2)

/-- Embeds the shared body of the SQLiteConfiguration::set_* members
(e.g. set_int, lines 1193-1243): run SQL_UPDATE_VALUE on the host table;
if `sqlite3_changes` is 0 the path did not exist and SQL_INSERT_VALUE
inserts (path, type, value). -/
def set_typed (c : SQLiteConfiguration) (path ctype : String) (v : SqlValue) :
    SQLiteConfiguration :=
  if (updateValue c.host path v).2 = 0 then
    { c with host := c.host ++ [(path, ⟨ctype, v⟩)] }
  else
    { c with host := (updateValue c.host path v).1 }

/-- Conversion of a C `unsigned int` argument to the C `int` parameter of
`sqlite3_bind_int` (two's complement reinterpretation), as happens in
set_uint (line 1146). -/
def uintToCInt (u : Nat) : Int :=
  (((u : Int) + 2 ^ 31) % 2 ^ 32) - 2 ^ 31

/-- Embeds SQLiteConfiguration::set_float (lines 1080-1130). -/
def set_float (c : SQLiteConfiguration) (path : String) (q : Rat) : SQLiteConfiguration :=
  set_typed c path "float" (.vreal q)

/-- Embeds SQLiteConfiguration::set_uint (lines 1137-1186). -/
def set_uint (c : SQLiteConfiguration) (path : String) (u : Nat) : SQLiteConfiguration :=
  set_typed c path "unsigned int" (.vint (uintToCInt u))

/-- Embeds SQLiteConfiguration::set_int (lines 1193-1243). -/
def set_int (c : SQLiteConfiguration) (path : String) (i : Int) : SQLiteConfiguration :=
  set_typed c path "int" (.vint i)

/-- Embeds SQLiteConfiguration::set_bool (lines 1250-1300): binds
`(b ? 1 : 0)`. -/
def set_bool (c : SQLiteConfiguration) (path : String) (b : Bool) : SQLiteConfiguration :=
  set_typed c path "bool" (.vint (if b then 1 else 0))

/-- Embeds SQLiteConfiguration::set_string (lines 1303-1356). -/
def set_string (c : SQLiteConfiguration) (path s : String) : SQLiteConfiguration :=
  set_typed c path "string" (.vtext s)

/-- Embeds SQLiteConfiguration::SQLiteValueIterator::get_uint (sqlite.cpp
lines 1943-1952), applied to the iterator's current row: a negative column
value silently becomes 0. -/
def valueIterator_get_uint (row : ConfigEntry) : Int :=
  if columnInt row.value < 0 then 0 else columnInt row.value

/-! ### Concrete fixtures used by the witness theorems -/

/-- A record id used in witnesses. -/
def ridW : RecordId := ⟨"Odometry", "robot1"⟩

/-- A record used in witnesses. -/
def recW : Record := ⟨5, [1, 2], 0, 0, []⟩

/-- A store with one record, one open writer handle (id 0) and one open
reader handle (id 1). -/
def bbW : BlackBoard :=
  { records := [(ridW, recW)],
    handles := [⟨0, ridW, true⟩, ⟨1, ridW, false⟩],
    nextHandle := 2, clock := 3, notifs := [Notif.created ridW] }

/-- A process state exposing only the blackboard capability. -/
def stW : ProcessState :=
  { capabilities := ["blackboard"], sched := [], observers := [],
    store_owners := [], loaded := [] }

/-- A plugin with one thread needing a capability ("gps") that `stW` does
not expose. -/
def plW : Plugin :=
  ⟨"gpsplugin", [⟨"gpsthread", "think", ["blackboard", "gps"], [ridW], []⟩]⟩

/-- Two scheduler phases for the cycle witness: a sensor thread writing
`ridW`, then an (empty) think phase. -/
def phasesW : List (List CycleThread) :=
  [[⟨"sensor", [(ridW, [7])]⟩], [⟨"think", []⟩]]

/-- A host table whose row at "p" has type tag "string". -/
def cfgStrP : SQLiteConfiguration := ⟨[("p", ⟨"string", .vtext "x"⟩)], []⟩

/-- A configuration with host and defaults rows for the same path. -/
def cfgBoth : SQLiteConfiguration :=
  ⟨[("p", ⟨"int", .vint 7⟩)], [("p", ⟨"int", .vint 9⟩)]⟩

/-- A configuration whose "unsigned int" row stores a negative value. -/
def cfgNegU : SQLiteConfiguration := ⟨[("u", ⟨"unsigned int", .vint (-3)⟩)], []⟩

/-- A configuration whose only row for "p" lives in the defaults table. -/
def cfgDefOnly : SQLiteConfiguration := ⟨[], [("p", ⟨"int", .vint 9⟩)]⟩

/-- A configuration whose "unsigned int" row stores a nonnegative value. -/
def cfgPosU : SQLiteConfiguration := ⟨[("u", ⟨"unsigned int", .vint 4⟩)], []⟩

/-! ### Helper lemmas -/

theorem findRecord_setRecord_self (l : List (RecordId × Record)) (rid : RecordId)
    (rec : Record) : findRecord (setRecord l rid rec) rid = some rec := by
  induction l with
  | nil => simp [setRecord, findRecord]
  | cons p rest ih =>
      obtain ⟨r, old⟩ := p
      by_cases h : r = rid
      · simp [setRecord, findRecord, h]
      · simp [setRecord, findRecord, h, ih]

theorem findRecord_setRecord_ne (l : List (RecordId × Record)) (rid rid' : RecordId)
    (rec : Record) (h : rid' ≠ rid) :
    findRecord (setRecord l rid rec) rid' = findRecord l rid' := by
  induction l with
  | nil => simp [setRecord, findRecord, Ne.symm h]
  | cons p rest ih =>
      obtain ⟨r, old⟩ := p
      by_cases hr : r = rid
      · subst hr
        simp [setRecord, findRecord, Ne.symm h]
      · by_cases hr' : r = rid'
        · subst hr'
          simp [setRecord, findRecord, hr]
        · simp [setRecord, findRecord, hr, hr', ih]

theorem findRecord_removeRecord_self (l : List (RecordId × Record)) (rid : RecordId) :
    findRecord (removeRecord l rid) rid = none := by
  induction l with
  | nil => simp [removeRecord, findRecord]
  | cons p rest ih =>
      obtain ⟨r, old⟩ := p
      by_cases h : r = rid
      · simp [removeRecord, h, ih]
      · simp [removeRecord, findRecord, h, ih]

theorem findRecord_removeRecord_ne (l : List (RecordId × Record)) (rid rid' : RecordId)
    (h : rid' ≠ rid) :
    findRecord (removeRecord l rid) rid' = findRecord l rid' := by
  induction l with
  | nil => simp [removeRecord]
  | cons p rest ih =>
      obtain ⟨r, old⟩ := p
      by_cases hr : r = rid
      · subst hr
        simp [removeRecord, findRecord, Ne.symm h, ih]
      · simp [removeRecord, findRecord, hr, ih]

theorem writerCount_le_length (bb : BlackBoard) (rid : RecordId) :
    writerCount bb rid ≤ bb.handles.length :=
  List.length_filter_le _ _

theorem writerCountH_cons (h : Handle) (hs : List Handle) (rid : RecordId) :
    writerCountH (h :: hs) rid =
      (if decide (h.rid = rid) && h.writer then 1 else 0) + writerCountH hs rid := by
  by_cases hp : (decide (h.rid = rid) && h.writer) = true
  · simp [writerCountH, List.filter_cons, hp, Nat.add_comm]
  · simp [writerCountH, List.filter_cons, hp]

theorem writerCountH_zero_of_not_any (hs : List Handle) (rid : RecordId)
    (h : hs.any (fun g => decide (g.rid = rid) && g.writer) = false) :
    writerCountH hs rid = 0 := by
  unfold writerCountH
  rw [List.length_eq_zero, List.filter_eq_nil_iff]
  intro a ha
  exact (List.any_eq_false.mp h) a ha

theorem writerCountH_filter_le (hs : List Handle) (q : Handle → Bool) (rid : RecordId) :
    writerCountH (hs.filter q) rid ≤ writerCountH hs rid := by
  induction hs with
  | nil => simp [writerCountH]
  | cons a t ih =>
      rw [List.filter_cons]
      by_cases hq : q a
      · rw [if_pos hq, writerCountH_cons, writerCountH_cons]
        omega
      · rw [if_neg hq, writerCountH_cons]
        omega

theorem writerUnique_push_writer (hs : List Handle) (rid : RecordId) (n : Nat)
    (hw : hs.any (fun g => decide (g.rid = rid) && g.writer) = false)
    (hWU : ∀ rid2, writerCountH hs rid2 ≤ 1) :
    ∀ rid2, writerCountH ((⟨n, rid, true⟩ : Handle) :: hs) rid2 ≤ 1 := by
  intro rid2
  rw [writerCountH_cons]
  by_cases h2 : rid = rid2
  · subst h2
    simp [writerCountH_zero_of_not_any hs rid hw]
  · simp only [show ((⟨n, rid, true⟩ : Handle)).rid = rid from rfl, h2]
    simp
    exact hWU rid2

theorem writerUnique_push_reader (hs : List Handle) (rid : RecordId) (n : Nat)
    (hWU : ∀ rid2, writerCountH hs rid2 ≤ 1) :
    ∀ rid2, writerCountH ((⟨n, rid, false⟩ : Handle) :: hs) rid2 ≤ 1 := by
  intro rid2
  rw [writerCountH_cons]
  simp
  exact hWU rid2

/-- Claim C1: at most one writer handle per record at any instant — a
second `open_for_writing` on a (type,id) that already has a writer returns
Error(AlreadyHasWriter) and leaves the store unchanged; readers may always
attach regardless of how many are open; and every Record Store operation
preserves the single-writer invariant. -/
theorem C1_single_writer :
    (∀ (bb : BlackBoard) (rid : RecordId) (hash : Nat),
        bb.hasWriter rid = true →
        bb.open_for_writing rid hash = (.error .AlreadyHasWriter, bb)) ∧
    (∀ (bb : BlackBoard) (rid : RecordId) (hash : Nat) (rec : Record),
        findRecord bb.records rid = some rec → rec.schema_hash = hash →
        (bb.open_for_reading rid hash).1 = .ok bb.nextHandle) ∧
    (∀ (bb : BlackBoard) (op : BBOp), WriterUnique bb → WriterUnique (bb.step op)) := by
  refine ⟨?_, ?_, ?_⟩
  · intro bb rid hash h
    simp [BlackBoard.open_for_writing, h]
  · intro bb rid hash rec hf hh
    simp [BlackBoard.open_for_reading, hf, hh]
  · intro bb op hWU
    cases op with
    | openW rid hash =>
        simp only [BlackBoard.step, BlackBoard.open_for_writing]
        by_cases hw : bb.hasWriter rid
        · simpa [hw] using hWU
        · rw [if_neg (by simp [hw])]
          have hwf : bb.hasWriter rid = false := by simpa using hw
          cases hfind : findRecord bb.records rid with
          | some rec =>
              by_cases hh : rec.schema_hash ≠ hash
              · simpa [hfind, hh] using hWU
              · simp only [hfind]
                rw [if_neg hh]
                intro rid2
                exact writerUnique_push_writer bb.handles rid bb.nextHandle hwf hWU rid2
          | none =>
              simp only [hfind]
              intro rid2
              exact writerUnique_push_writer bb.handles rid bb.nextHandle hwf hWU rid2
    | openR rid hash =>
        simp only [BlackBoard.step, BlackBoard.open_for_reading]
        cases hfind : findRecord bb.records rid with
        | none => simpa [hfind] using hWU
        | some rec =>
            by_cases hh : rec.schema_hash ≠ hash
            · simpa [hfind, hh] using hWU
            · simp only [hfind]
              rw [if_neg hh]
              intro rid2
              exact writerUnique_push_reader bb.handles rid bb.nextHandle hWU rid2
    | writeOp hid v =>
        simp only [BlackBoard.step, BlackBoard.write]
        cases hfh : bb.findHandle hid with
        | none => simpa [hfh] using hWU
        | some h =>
            by_cases hwr : h.writer
            · cases hfind : findRecord bb.records h.rid with
              | none => simpa [hfh, hfind, hwr] using hWU
              | some rec => simpa [hfh, hfind, hwr, WriterUnique, writerCount] using hWU
            · simpa [hfh, hwr] using hWU
    | readOp hid =>
        simp only [BlackBoard.step, BlackBoard.read]
        cases hfh : bb.findHandle hid with
        | none => simpa [hfh] using hWU
        | some h =>
            cases hfind : findRecord bb.records h.rid with
            | none => simpa [hfh, hfind] using hWU
            | some rec => simpa [hfh, hfind] using hWU
    | enq hid m =>
        simp only [BlackBoard.step, BlackBoard.msgq_enqueue]
        cases hfh : bb.findHandle hid with
        | none => simpa [hfh] using hWU
        | some h =>
            cases hfind : findRecord bb.records h.rid with
            | none => simpa [hfh, hfind] using hWU
            | some rec => simpa [hfh, hfind, WriterUnique, writerCount] using hWU
    | deq hid =>
        simp only [BlackBoard.step, BlackBoard.dequeue_all]
        cases hfh : bb.findHandle hid with
        | none => simpa [hfh] using hWU
        | some h =>
            by_cases hwr : h.writer
            · cases hfind : findRecord bb.records h.rid with
              | none => simpa [hfh, hfind, hwr] using hWU
              | some rec => simpa [hfh, hfind, hwr, WriterUnique, writerCount] using hWU
            · simpa [hfh, hwr] using hWU
    | closeOp hid =>
        simp only [BlackBoard.step, BlackBoard.close]
        cases hfh : bb.findHandle hid with
        | none => simpa [hfh] using hWU
        | some h =>
            by_cases halive :
                ((bb.handles.filter (fun g => decide (g.hid ≠ hid))).any
                  (fun g => decide (g.rid = h.rid))) = true
            · simp only [hfh]
              rw [if_pos halive]
              intro rid2
              exact le_trans (writerCountH_filter_le bb.handles _ rid2) (hWU rid2)
            · simp only [hfh]
              rw [if_neg halive]
              intro rid2
              exact le_trans (writerCountH_filter_le bb.handles _ rid2) (hWU rid2)

/-- Witness for C1 on a concrete store with an open writer. -/
theorem C1_single_writer_witness :
    bbW.open_for_writing ridW 5 = (.error .AlreadyHasWriter, bbW) ∧
    (bbW.open_for_reading ridW 5).1 = .ok 2 ∧
    WriterUnique (bbW.step (.openR ridW 5)) := by
  refine ⟨C1_single_writer.1 bbW ridW 5 (by decide),
          C1_single_writer.2.1 bbW ridW 5 recW (by decide) (by decide),
          C1_single_writer.2.2 bbW (.openR ridW 5) ?_⟩
  intro rid
  show writerCountH bbW.handles rid ≤ 1
  rw [show bbW.handles = [⟨0, ridW, true⟩, ⟨1, ridW, false⟩] from rfl,
      writerCountH_cons, writerCountH_cons]
  by_cases h : ridW = rid <;> simp [h, writerCountH]

theorem write_handles (bb : BlackBoard) (hid : Nat) (v : List Int) :
    (bb.write hid v).2.handles = bb.handles := by
  unfold BlackBoard.write
  split
  · rfl
  · split
    · rfl
    · split <;> rfl

theorem enqueue_handles (bb : BlackBoard) (hid : Nat) (m : Msg) :
    (bb.msgq_enqueue hid m).2.handles = bb.handles := by
  unfold BlackBoard.msgq_enqueue
  split
  · rfl
  · split <;> rfl

theorem findHandle_congr (bb bb' : BlackBoard) (hid : Nat)
    (h : bb'.handles = bb.handles) : bb'.findHandle hid = bb.findHandle hid := by
  unfold BlackBoard.findHandle
  rw [h]

/-- Claim C2: round-trip of a publish — writing a schema-conforming value
vector through the writer handle and then reading through any handle of
the same record (with no intervening write) returns exactly that vector
(at the incremented sequence number). -/
theorem C2_write_read_roundtrip
    (bb : BlackBoard) (hw hr : Nat) (v : List Int) (h g : Handle) (rec : Record)
    (hfw : bb.findHandle hw = some h) (hwr : h.writer = true)
    (hfr : bb.findHandle hr = some g) (hsame : g.rid = h.rid)
    (hrec : findRecord bb.records h.rid = some rec) :
    ((bb.write hw v).2.read hr).1 = .ok (v, rec.seq + 1) := by
  have hbb' : (bb.write hw v).2 =
      { bb with
          records := setRecord bb.records h.rid
                       ({ rec with values := v, seq := rec.seq + 1, stamp := bb.clock }),
          notifs := bb.notifs ++ [.dataChanged h.rid (rec.seq + 1)] } := by
    unfold BlackBoard.write
    rw [hfw]
    simp [hwr, hrec]
  rw [hbb']
  unfold BlackBoard.read
  have hfr' : BlackBoard.findHandle
      { bb with
          records := setRecord bb.records h.rid
                       ({ rec with values := v, seq := rec.seq + 1, stamp := bb.clock }),
          notifs := bb.notifs ++ [.dataChanged h.rid (rec.seq + 1)] } hr = some g := hfr
  rw [hfr']
  simp only [hsame, findRecord_setRecord_self]

/-- Witness for C2 on the concrete store `bbW`: write through handle 0,
read back through reader handle 1. -/
theorem C2_write_read_roundtrip_witness :
    ((bbW.write 0 [9]).2.read 1).1 = .ok ([9], 1) :=
  C2_write_read_roundtrip bbW 0 1 [9] ⟨0, ridW, true⟩ ⟨1, ridW, false⟩ recW
    (by decide) (by decide) (by decide) (by decide) (by decide)

/-- Claim C3: the command queue is FIFO across producers — after any
sequence of enqueues through handles of the record (reader or writer
handles alike), `dequeue_all` on the writer handle returns the previously
queued messages followed by the newly enqueued ones in exactly enqueue
order, and leaves the queue empty. -/
theorem C3_fifo
    (bb : BlackBoard) (rid : RecordId) (ms : List (Nat × Msg)) (hw : Nat)
    (h : Handle) (rec : Record)
    (hms : ∀ p ∈ ms, ∃ g : Handle, bb.findHandle p.1 = some g ∧ g.rid = rid)
    (hfw : bb.findHandle hw = some h) (hwr : h.writer = true) (hr : h.rid = rid)
    (hrec : findRecord bb.records rid = some rec) :
    ((enqueueAll bb ms).dequeue_all hw).1 = .ok (rec.queue ++ ms.map Prod.snd) ∧
    findRecord ((enqueueAll bb ms).dequeue_all hw).2.records rid =
      some { rec with queue := [] } := by
  induction ms generalizing bb rec with
  | nil =>
      constructor
      · unfold enqueueAll BlackBoard.dequeue_all
        rw [hfw]
        simp [hwr, hr, hrec]
      · unfold enqueueAll BlackBoard.dequeue_all
        rw [hfw]
        simp [hwr, hr, hrec, findRecord_setRecord_self]
  | cons p rest ih =>
      obtain ⟨hid, m⟩ := p
      obtain ⟨g, hg, hgr⟩ := hms (hid, m) (by simp)
      have hbb1 : (bb.msgq_enqueue hid m).2 =
          { bb with records := setRecord bb.records rid
                      ({ rec with queue := rec.queue ++ [m] }) } := by
        unfold BlackBoard.msgq_enqueue
        rw [hg]
        simp [hgr, hrec]
      have hms1 : ∀ p ∈ rest,
          ∃ g2 : Handle, (bb.msgq_enqueue hid m).2.findHandle p.1 = some g2 ∧ g2.rid = rid := by
        intro p hp
        obtain ⟨g2, hg2, hgr2⟩ := hms p (by simp [hp])
        refine ⟨g2, ?_, hgr2⟩
        rw [findHandle_congr bb (bb.msgq_enqueue hid m).2 p.1 (enqueue_handles bb hid m)]
        exact hg2
      have hfw1 : (bb.msgq_enqueue hid m).2.findHandle hw = some h := by
        rw [findHandle_congr bb (bb.msgq_enqueue hid m).2 hw (enqueue_handles bb hid m)]
        exact hfw
      have hrec1 : findRecord (bb.msgq_enqueue hid m).2.records rid =
          some ({ rec with queue := rec.queue ++ [m] }) := by
        rw [hbb1]
        exact findRecord_setRecord_self _ _ _
      have hstep := ih (bb.msgq_enqueue hid m).2 ({ rec with queue := rec.queue ++ [m] })
        hms1 hfw1 hrec1
      constructor
      · rw [show enqueueAll bb ((hid, m) :: rest) = enqueueAll (bb.msgq_enqueue hid m).2 rest
            from rfl]
        rw [hstep.1]
        simp
      · rw [show enqueueAll bb ((hid, m) :: rest) = enqueueAll (bb.msgq_enqueue hid m).2 rest
            from rfl]
        exact hstep.2

/-- Witness for C3: two messages enqueued through different handles come
back from `dequeue_all` in enqueue order. -/
theorem C3_fifo_witness :
    ((enqueueAll bbW [(1, ⟨1, 42⟩), (0, ⟨0, 7⟩)]).dequeue_all 0).1 =
      .ok [⟨1, 42⟩, ⟨0, 7⟩] ∧
    findRecord ((enqueueAll bbW [(1, ⟨1, 42⟩), (0, ⟨0, 7⟩)]).dequeue_all 0).2.records ridW =
      some { recW with queue := [] } := by
  have hres := C3_fifo bbW ridW [(1, ⟨1, 42⟩), (0, ⟨0, 7⟩)] 0 ⟨0, ridW, true⟩ recW
    (by
      intro p hp
      simp only [List.mem_cons, List.not_mem_nil, or_false] at hp
      rcases hp with hp | hp
      · exact hp ▸ ⟨⟨1, ridW, false⟩, by decide, by decide⟩
      · exact hp ▸ ⟨⟨0, ridW, true⟩, by decide, by decide⟩)
    (by decide) (by decide) (by decide) (by decide)
  exact hres

theorem openW_hasWriter_eq (bb : BlackBoard) (rid : RecordId) (hash : Nat)
    (hw : bb.hasWriter rid = true) :
    bb.open_for_writing rid hash = (.error .AlreadyHasWriter, bb) := by
  unfold BlackBoard.open_for_writing
  rw [if_pos hw]

theorem openW_mismatch_eq (bb : BlackBoard) (rid : RecordId) (hash : Nat) (rec : Record)
    (hw : bb.hasWriter rid = false) (hf : findRecord bb.records rid = some rec)
    (hh : rec.schema_hash ≠ hash) :
    bb.open_for_writing rid hash = (.error .SchemaMismatch, bb) := by
  unfold BlackBoard.open_for_writing
  simp [hw, hf, hh]

theorem openW_attach_eq (bb : BlackBoard) (rid : RecordId) (hash : Nat) (rec : Record)
    (hw : bb.hasWriter rid = false) (hf : findRecord bb.records rid = some rec)
    (hh : rec.schema_hash = hash) :
    bb.open_for_writing rid hash =
      (.ok bb.nextHandle,
       { bb with handles := ⟨bb.nextHandle, rid, true⟩ :: bb.handles,
                 nextHandle := bb.nextHandle + 1 }) := by
  unfold BlackBoard.open_for_writing
  simp [hw, hf, hh]

theorem openW_create_eq (bb : BlackBoard) (rid : RecordId) (hash : Nat)
    (hw : bb.hasWriter rid = false) (hf : findRecord bb.records rid = none) :
    bb.open_for_writing rid hash =
      (.ok bb.nextHandle,
       { bb with records := (rid, ⟨hash, [], 0, bb.clock, []⟩) :: bb.records,
                 handles := ⟨bb.nextHandle, rid, true⟩ :: bb.handles,
                 nextHandle := bb.nextHandle + 1,
                 notifs := bb.notifs ++ [.created rid] }) := by
  unfold BlackBoard.open_for_writing
  simp [hw, hf]

theorem openR_notfound_eq (bb : BlackBoard) (rid : RecordId) (hash : Nat)
    (hf : findRecord bb.records rid = none) :
    bb.open_for_reading rid hash = (.error .NotFound, bb) := by
  unfold BlackBoard.open_for_reading
  rw [hf]

theorem openR_mismatch_eq (bb : BlackBoard) (rid : RecordId) (hash : Nat) (rec : Record)
    (hf : findRecord bb.records rid = some rec) (hh : rec.schema_hash ≠ hash) :
    bb.open_for_reading rid hash = (.error .SchemaMismatch, bb) := by
  unfold BlackBoard.open_for_reading
  simp [hf, hh]

theorem openR_attach_eq (bb : BlackBoard) (rid : RecordId) (hash : Nat) (rec : Record)
    (hf : findRecord bb.records rid = some rec) (hh : rec.schema_hash = hash) :
    bb.open_for_reading rid hash =
      (.ok bb.nextHandle,
       { bb with handles := ⟨bb.nextHandle, rid, false⟩ :: bb.handles,
                 nextHandle := bb.nextHandle + 1 }) := by
  unfold BlackBoard.open_for_reading
  simp [hf, hh]

theorem read_nohandle_eq (bb : BlackBoard) (hid : Nat)
    (hfh : bb.findHandle hid = none) :
    bb.read hid = (.error .InvalidHandle, bb) := by
  unfold BlackBoard.read
  rw [hfh]

theorem read_norec_eq (bb : BlackBoard) (hid : Nat) (h : Handle)
    (hfh : bb.findHandle hid = some h) (hf : findRecord bb.records h.rid = none) :
    bb.read hid = (.error .InvalidHandle, bb) := by
  unfold BlackBoard.read
  rw [hfh]
  simp [hf]

theorem read_ok_eq (bb : BlackBoard) (hid : Nat) (h : Handle) (rec : Record)
    (hfh : bb.findHandle hid = some h) (hf : findRecord bb.records h.rid = some rec) :
    bb.read hid = (.ok (rec.values, rec.seq), bb) := by
  unfold BlackBoard.read
  rw [hfh]
  simp [hf]

theorem write_nohandle_eq (bb : BlackBoard) (hid : Nat) (v : List Int)
    (hfh : bb.findHandle hid = none) :
    bb.write hid v = (.error .InvalidHandle, bb) := by
  unfold BlackBoard.write
  rw [hfh]

theorem write_reader_eq (bb : BlackBoard) (hid : Nat) (v : List Int) (h : Handle)
    (hfh : bb.findHandle hid = some h) (hwr : h.writer = false) :
    bb.write hid v = (.error .InvalidHandle, bb) := by
  unfold BlackBoard.write
  rw [hfh]
  simp [hwr]

theorem write_norec_eq (bb : BlackBoard) (hid : Nat) (v : List Int) (h : Handle)
    (hfh : bb.findHandle hid = some h) (hwr : h.writer = true)
    (hf : findRecord bb.records h.rid = none) :
    bb.write hid v = (.error .InvalidHandle, bb) := by
  unfold BlackBoard.write
  rw [hfh]
  simp [hwr, hf]

theorem write_ok_eq (bb : BlackBoard) (hid : Nat) (v : List Int) (h : Handle) (rec : Record)
    (hfh : bb.findHandle hid = some h) (hwr : h.writer = true)
    (hf : findRecord bb.records h.rid = some rec) :
    bb.write hid v =
      (.ok (),
       { bb with
           records := setRecord bb.records h.rid
                        ({ rec with values := v, seq := rec.seq + 1, stamp := bb.clock }),
           notifs := bb.notifs ++ [.dataChanged h.rid (rec.seq + 1)] }) := by
  unfold BlackBoard.write
  rw [hfh]
  simp [hwr, hf]

theorem enqueue_nohandle_eq (bb : BlackBoard) (hid : Nat) (m : Msg)
    (hfh : bb.findHandle hid = none) :
    bb.msgq_enqueue hid m = (.error .InvalidHandle, bb) := by
  unfold BlackBoard.msgq_enqueue
  rw [hfh]

theorem enqueue_norec_eq (bb : BlackBoard) (hid : Nat) (m : Msg) (h : Handle)
    (hfh : bb.findHandle hid = some h) (hf : findRecord bb.records h.rid = none) :
    bb.msgq_enqueue hid m = (.error .InvalidHandle, bb) := by
  unfold BlackBoard.msgq_enqueue
  rw [hfh]
  simp [hf]

theorem enqueue_ok_eq (bb : BlackBoard) (hid : Nat) (m : Msg) (h : Handle) (rec : Record)
    (hfh : bb.findHandle hid = some h) (hf : findRecord bb.records h.rid = some rec) :
    bb.msgq_enqueue hid m =
      (.ok (),
       { bb with records := setRecord bb.records h.rid
                   ({ rec with queue := rec.queue ++ [m] }) }) := by
  unfold BlackBoard.msgq_enqueue
  rw [hfh]
  simp [hf]

theorem dequeue_nohandle_eq (bb : BlackBoard) (hid : Nat)
    (hfh : bb.findHandle hid = none) :
    bb.dequeue_all hid = (.error .InvalidHandle, bb) := by
  unfold BlackBoard.dequeue_all
  rw [hfh]

theorem dequeue_reader_eq (bb : BlackBoard) (hid : Nat) (h : Handle)
    (hfh : bb.findHandle hid = some h) (hwr : h.writer = false) :
    bb.dequeue_all hid = (.error .InvalidHandle, bb) := by
  unfold BlackBoard.dequeue_all
  rw [hfh]
  simp [hwr]

theorem dequeue_norec_eq (bb : BlackBoard) (hid : Nat) (h : Handle)
    (hfh : bb.findHandle hid = some h) (hwr : h.writer = true)
    (hf : findRecord bb.records h.rid = none) :
    bb.dequeue_all hid = (.error .InvalidHandle, bb) := by
  unfold BlackBoard.dequeue_all
  rw [hfh]
  simp [hwr, hf]

theorem dequeue_ok_eq (bb : BlackBoard) (hid : Nat) (h : Handle) (rec : Record)
    (hfh : bb.findHandle hid = some h) (hwr : h.writer = true)
    (hf : findRecord bb.records h.rid = some rec) :
    bb.dequeue_all hid =
      (.ok rec.queue,
       { bb with records := setRecord bb.records h.rid ({ rec with queue := [] }) }) := by
  unfold BlackBoard.dequeue_all
  rw [hfh]
  simp [hwr, hf]

theorem close_nohandle_eq (bb : BlackBoard) (hid : Nat)
    (hfh : bb.findHandle hid = none) :
    bb.close hid = (.error .InvalidHandle, bb) := by
  unfold BlackBoard.close
  rw [hfh]

theorem close_alive_eq (bb : BlackBoard) (hid : Nat) (h : Handle)
    (hfh : bb.findHandle hid = some h)
    (ha : ((bb.handles.filter (fun g => decide (g.hid ≠ hid))).any
            (fun g => decide (g.rid = h.rid))) = true) :
    bb.close hid =
      (.ok (), { bb with handles := bb.handles.filter (fun g => decide (g.hid ≠ hid)) }) := by
  unfold BlackBoard.close
  simp only [hfh]
  rw [if_pos ha]

theorem close_destroy_eq (bb : BlackBoard) (hid : Nat) (h : Handle)
    (hfh : bb.findHandle hid = some h)
    (ha : ((bb.handles.filter (fun g => decide (g.hid ≠ hid))).any
            (fun g => decide (g.rid = h.rid))) = false) :
    bb.close hid =
      (.ok (),
       { bb with
           handles := bb.handles.filter (fun g => decide (g.hid ≠ hid)),
           records := removeRecord bb.records h.rid,
           notifs := bb.notifs ++ [.destroyed h.rid] }) := by
  unfold BlackBoard.close
  simp only [hfh]
  rw [if_neg (by rw [ha]; simp)]

/-- Claim C4: every successful write strictly increases the record's
sequence number and fires the "data changed" notification exactly once per
publish, appended to the state in which the published values are already
visible; the completeness invariant (every sequence number up to the
current one has a fired notification) is preserved by all operations, so a
reader observing sequence number N has also observed every notification
for sequence numbers up to N. -/
theorem C4_seq_notifs :
    (∀ (bb : BlackBoard) (hid : Nat) (v : List Int) (h : Handle) (rec : Record),
        bb.findHandle hid = some h → h.writer = true →
        findRecord bb.records h.rid = some rec →
        (bb.write hid v).1 = .ok () ∧
        findRecord (bb.write hid v).2.records h.rid =
          some { rec with values := v, seq := rec.seq + 1, stamp := bb.clock } ∧
        rec.seq < rec.seq + 1 ∧
        (bb.write hid v).2.notifs = bb.notifs ++ [.dataChanged h.rid (rec.seq + 1)]) ∧
    (∀ (bb : BlackBoard) (op : BBOp), NotifComplete bb → NotifComplete (bb.step op)) ∧
    (∀ (bb : BlackBoard) (hid : Nat) (h : Handle) (vals : List Int) (n : Nat),
        NotifComplete bb → bb.findHandle hid = some h →
        (bb.read hid).1 = .ok (vals, n) →
        ∀ k, 0 < k → k ≤ n → Notif.dataChanged h.rid k ∈ bb.notifs) := by
  refine ⟨?_, ?_, ?_⟩
  · intro bb hid v h rec hfh hwr hrec
    have hbb' : bb.write hid v =
        (.ok (),
         { bb with
             records := setRecord bb.records h.rid
                          ({ rec with values := v, seq := rec.seq + 1, stamp := bb.clock }),
             notifs := bb.notifs ++ [.dataChanged h.rid (rec.seq + 1)] }) := by
      unfold BlackBoard.write
      rw [hfh]
      simp [hwr, hrec]
    rw [hbb']
    refine ⟨rfl, ?_, Nat.lt_succ_self _, rfl⟩
    exact findRecord_setRecord_self _ _ _
  · intro bb op hNC
    cases op with
    | openW rid' hash =>
        simp only [BlackBoard.step]
        by_cases hw : bb.hasWriter rid' = true
        · rw [openW_hasWriter_eq bb rid' hash hw]
          exact hNC
        · have hwf : bb.hasWriter rid' = false := by simpa using hw
          cases hfind : findRecord bb.records rid' with
          | some rec0 =>
              by_cases hh : rec0.schema_hash = hash
              · rw [openW_attach_eq bb rid' hash rec0 hwf hfind hh]
                exact hNC
              · rw [openW_mismatch_eq bb rid' hash rec0 hwf hfind hh]
                exact hNC
          | none =>
              rw [openW_create_eq bb rid' hash hwf hfind]
              intro rid rec hfind2 k hk1 hk2
              have hfind2a : findRecord ((rid', ⟨hash, [], 0, bb.clock, []⟩) :: bb.records)
                  rid = some rec := hfind2
              simp only [findRecord] at hfind2a
              by_cases he : rid' = rid
              · rw [if_pos he] at hfind2a
                injection hfind2a with hh2
                rw [← hh2] at hk2
                simp at hk2
                omega
              · rw [if_neg he] at hfind2a
                exact List.mem_append.mpr (Or.inl (hNC rid rec hfind2a k hk1 hk2))
    | openR rid' hash =>
        simp only [BlackBoard.step]
        cases hfind : findRecord bb.records rid' with
        | none =>
            rw [openR_notfound_eq bb rid' hash hfind]
            exact hNC
        | some rec0 =>
            by_cases hh : rec0.schema_hash = hash
            · rw [openR_attach_eq bb rid' hash rec0 hfind hh]
              exact hNC
            · rw [openR_mismatch_eq bb rid' hash rec0 hfind hh]
              exact hNC
    | writeOp hid v =>
        simp only [BlackBoard.step]
        cases hfh : bb.findHandle hid with
        | none =>
            rw [write_nohandle_eq bb hid v hfh]
            exact hNC
        | some h =>
            by_cases hwr : h.writer = true
            · cases hfind : findRecord bb.records h.rid with
              | none =>
                  rw [write_norec_eq bb hid v h hfh hwr hfind]
                  exact hNC
              | some rec0 =>
                  rw [write_ok_eq bb hid v h rec0 hfh hwr hfind]
                  intro rid rec hfind2 k hk1 hk2
                  have hfind2a : findRecord (setRecord bb.records h.rid
                      ({ rec0 with values := v, seq := rec0.seq + 1, stamp := bb.clock }))
                      rid = some rec := hfind2
                  by_cases he : rid = h.rid
                  · subst he
                    rw [findRecord_setRecord_self] at hfind2a
                    injection hfind2a with hh2
                    rw [← hh2] at hk2
                    have hk2a : k ≤ rec0.seq + 1 := hk2
                    rcases Nat.lt_or_ge k (rec0.seq + 1) with hlt | hge
                    · exact List.mem_append.mpr
                        (Or.inl (hNC h.rid rec0 hfind k hk1 (by omega)))
                    · have hke : k = rec0.seq + 1 := by omega
                      subst hke
                      exact List.mem_append.mpr (Or.inr (by simp))
                  · rw [findRecord_setRecord_ne _ _ _ _ he] at hfind2a
                    exact List.mem_append.mpr (Or.inl (hNC rid rec hfind2a k hk1 hk2))
            · have hwf : h.writer = false := by simpa using hwr
              rw [write_reader_eq bb hid v h hfh hwf]
              exact hNC
    | readOp hid =>
        simp only [BlackBoard.step]
        cases hfh : bb.findHandle hid with
        | none =>
            rw [read_nohandle_eq bb hid hfh]
            exact hNC
        | some h =>
            cases hfind : findRecord bb.records h.rid with
            | none =>
                rw [read_norec_eq bb hid h hfh hfind]
                exact hNC
            | some rec0 =>
                rw [read_ok_eq bb hid h rec0 hfh hfind]
                exact hNC
    | enq hid m =>
        simp only [BlackBoard.step]
        cases hfh : bb.findHandle hid with
        | none =>
            rw [enqueue_nohandle_eq bb hid m hfh]
            exact hNC
        | some h =>
            cases hfind : findRecord bb.records h.rid with
            | none =>
                rw [enqueue_norec_eq bb hid m h hfh hfind]
                exact hNC
            | some rec0 =>
                rw [enqueue_ok_eq bb hid m h rec0 hfh hfind]
                intro rid rec hfind2 k hk1 hk2
                have hfind2a : findRecord (setRecord bb.records h.rid
                    ({ rec0 with queue := rec0.queue ++ [m] })) rid = some rec := hfind2
                by_cases he : rid = h.rid
                · subst he
                  rw [findRecord_setRecord_self] at hfind2a
                  injection hfind2a with hh2
                  rw [← hh2] at hk2
                  have hk2a : k ≤ rec0.seq := hk2
                  exact hNC h.rid rec0 hfind k hk1 hk2a
                · rw [findRecord_setRecord_ne _ _ _ _ he] at hfind2a
                  exact hNC rid rec hfind2a k hk1 hk2
    | deq hid =>
        simp only [BlackBoard.step]
        cases hfh : bb.findHandle hid with
        | none =>
            rw [dequeue_nohandle_eq bb hid hfh]
            exact hNC
        | some h =>
            by_cases hwr : h.writer = true
            · cases hfind : findRecord bb.records h.rid with
              | none =>
                  rw [dequeue_norec_eq bb hid h hfh hwr hfind]
                  exact hNC
              | some rec0 =>
                  rw [dequeue_ok_eq bb hid h rec0 hfh hwr hfind]
                  intro rid rec hfind2 k hk1 hk2
                  have hfind2a : findRecord (setRecord bb.records h.rid
                      ({ rec0 with queue := [] })) rid = some rec := hfind2
                  by_cases he : rid = h.rid
                  · subst he
                    rw [findRecord_setRecord_self] at hfind2a
                    injection hfind2a with hh2
                    rw [← hh2] at hk2
                    have hk2a : k ≤ rec0.seq := hk2
                    exact hNC h.rid rec0 hfind k hk1 hk2a
                  · rw [findRecord_setRecord_ne _ _ _ _ he] at hfind2a
                    exact hNC rid rec hfind2a k hk1 hk2
            · have hwf : h.writer = false := by simpa using hwr
              rw [dequeue_reader_eq bb hid h hfh hwf]
              exact hNC
    | closeOp hid =>
        simp only [BlackBoard.step]
        cases hfh : bb.findHandle hid with
        | none =>
            rw [close_nohandle_eq bb hid hfh]
            exact hNC
        | some h =>
            by_cases halive :
                ((bb.handles.filter (fun g => decide (g.hid ≠ hid))).any
                  (fun g => decide (g.rid = h.rid))) = true
            · rw [close_alive_eq bb hid h hfh halive]
              exact hNC
            · have haf : ((bb.handles.filter (fun g => decide (g.hid ≠ hid))).any
                  (fun g => decide (g.rid = h.rid))) = false := by simpa using halive
              rw [close_destroy_eq bb hid h hfh haf]
              intro rid rec hfind2 k hk1 hk2
              have hfind2a : findRecord (removeRecord bb.records h.rid) rid = some rec :=
                hfind2
              by_cases he : rid = h.rid
              · rw [he, findRecord_removeRecord_self] at hfind2a
                exact Option.noConfusion hfind2a
              · rw [findRecord_removeRecord_ne _ _ _ he] at hfind2a
                exact List.mem_append.mpr (Or.inl (hNC rid rec hfind2a k hk1 hk2))
  · intro bb hid h vals n hNC hfh hread k hk1 hk2
    cases hfind : findRecord bb.records h.rid with
    | none =>
        rw [read_norec_eq bb hid h hfh hfind] at hread
        exact absurd hread (by simp)
    | some rec =>
        rw [read_ok_eq bb hid h rec hfh hfind] at hread
        have hread2 : (Except.ok (rec.values, rec.seq) : Except BBError (List Int × Nat)) =
            .ok (vals, n) := hread
        injection hread2 with hh2
        injection hh2 with hv hn
        rw [← hn] at hk2
        exact hNC h.rid rec hfind k hk1 hk2

/-- Witness for C4 on the concrete store `bbW`: one write bumps the
sequence number to 1 and fires exactly one data-changed notification. -/
theorem C4_seq_notifs_witness :
    (bbW.write 0 [9]).1 = .ok () ∧
    findRecord (bbW.write 0 [9]).2.records ridW =
      some { recW with values := [9], seq := 1, stamp := 3 } ∧
    recW.seq < recW.seq + 1 ∧
    (bbW.write 0 [9]).2.notifs = bbW.notifs ++ [.dataChanged ridW 1] ∧
    NotifComplete (bbW.step (.readOp 1)) ∧
    (∀ k, 0 < k → k ≤ 0 → Notif.dataChanged ridW k ∈ bbW.notifs) := by
  have hNCW : NotifComplete bbW := by
    intro rid rec hfind k hk1 hk2
    simp only [bbW, findRecord] at hfind
    by_cases he : ridW = rid
    · rw [if_pos he] at hfind
      injection hfind with hh2
      rw [← hh2] at hk2
      simp only [recW] at hk2
      omega
    · rw [if_neg he] at hfind
      exact Option.noConfusion hfind
  have h1 := C4_seq_notifs.1 bbW 0 [9] ⟨0, ridW, true⟩ recW (by decide) (by decide) (by decide)
  have h2 := C4_seq_notifs.2.1 bbW (.readOp 1) hNCW
  have h3 := C4_seq_notifs.2.2 bbW 1 ⟨1, ridW, false⟩ recW.values recW.seq hNCW
    (by decide) (by rfl)
  exact ⟨h1.1, h1.2.1, h1.2.2.1, h1.2.2.2, h2, h3⟩

theorem filter_mk_pairs_nil {β : Type} (pn : String) (l : List β) :
    ((l.map (fun r => (pn, r))).filter (fun p => decide (p.1 ≠ pn))) = [] := by
  induction l with
  | nil => rfl
  | cons a t ih => simp [List.filter_cons, ih]

theorem purge_registerThread (st : ProcessState) (pn : String) (t : ThreadDecl) :
    purgePlugin (registerThread st pn t) pn = purgePlugin st pn := by
  unfold purgePlugin registerThread
  simp [List.filter_append, List.filter_cons, filter_mk_pairs_nil]

theorem purge_of_pluginFree (st : ProcessState) (pn : String) (hf : pluginFree st pn) :
    purgePlugin st pn = st := by
  obtain ⟨h1, h2, h3, h4⟩ := hf
  unfold purgePlugin
  rw [List.filter_eq_self.mpr (fun a ha => by simpa using h2 a ha),
      List.filter_eq_self.mpr (fun a ha => by simpa using h3 a ha),
      List.filter_eq_self.mpr (fun a ha => by simpa using h4 a ha)]

theorem initThreads_err_purge (pn : String) (ts : List ThreadDecl) :
    ∀ (st : ProcessState) (e : LoadError) (st2 : ProcessState),
      initThreads st pn ts = .error (e, st2) →
      purgePlugin st2 pn = purgePlugin st pn := by
  induction ts with
  | nil =>
      intro st e st2 h
      exact absurd h (by simp [initThreads])
  | cons t rest ih =>
      intro st e st2 h
      unfold initThreads at h
      cases hfind : t.aspects.find? (fun a => !st.capabilities.contains a) with
      | some a =>
          simp only [hfind] at h
          injection h with hpair
          injection hpair with he hst
          rw [← hst]
      | none =>
          simp only [hfind] at h
          rw [ih (registerThread st pn t) e st2 h, purge_registerThread]

theorem initThreads_err_unmet (pn : String) (ts : List ThreadDecl) :
    ∀ (st : ProcessState) (e : LoadError) (st2 : ProcessState),
      initThreads st pn ts = .error (e, st2) →
      ∃ a2, e = .UnmetAspect a2 ∧ st.capabilities.contains a2 = false := by
  induction ts with
  | nil =>
      intro st e st2 h
      exact absurd h (by simp [initThreads])
  | cons t rest ih =>
      intro st e st2 h
      unfold initThreads at h
      cases hfind : t.aspects.find? (fun a => !st.capabilities.contains a) with
      | some a =>
          simp only [hfind] at h
          injection h with hpair
          injection hpair with he hst
          refine ⟨a, he.symm, ?_⟩
          have := List.find?_some hfind
          simpa using this
      | none =>
          simp only [hfind] at h
          exact ih (registerThread st pn t) e st2 h

theorem initThreads_ok_allmet (pn : String) (ts : List ThreadDecl) :
    ∀ (st st2 : ProcessState), initThreads st pn ts = .ok st2 →
      ∀ t ∈ ts, ∀ a ∈ t.aspects, st.capabilities.contains a = true := by
  induction ts with
  | nil =>
      intro st st2 h t ht
      exact absurd ht (by simp)
  | cons t0 rest ih =>
      intro st st2 h t ht a ha
      unfold initThreads at h
      cases hfind : t0.aspects.find? (fun a => !st.capabilities.contains a) with
      | some a2 =>
          simp only [hfind] at h
          exact Except.noConfusion h
      | none =>
          simp only [hfind] at h
          rcases List.mem_cons.mp ht with he | he
          · subst he
            have := List.find?_eq_none.mp hfind a ha
            simpa using this
          · exact ih (registerThread st pn t0) st2 h t he a ha

/-- Claim C5: plugin activation is all-or-nothing — a plugin whose factory
throws is never registered and the load call fails; a Thread declaring a
capability the process does not expose makes the whole load fail with
Error(UnmetAspect(name)); and a failed load leaves the scheduler, the
notification registry and the record store exactly as they were (no
partial registration). -/
theorem C5_all_or_nothing :
    (∀ (st : ProcessState) (pn : String), pluginFree st pn →
        load st none pn = (.error .LoadFailed, st)) ∧
    (∀ (st : ProcessState) (pn : String) (pl : Plugin) (e : LoadError) (st2 : ProcessState),
        pluginFree st pn → load st (some pl) pn = (.error e, st2) →
        st2 = st) ∧
    (∀ (st : ProcessState) (pn : String) (pl : Plugin) (t : ThreadDecl) (a : String),
        pluginFree st pn → t ∈ pl.threads → a ∈ t.aspects →
        st.capabilities.contains a = false →
        ∃ a2, (load st (some pl) pn).1 = .error (.UnmetAspect a2) ∧
              st.capabilities.contains a2 = false) := by
  refine ⟨?_, ?_, ?_⟩
  · intro st pn hf
    unfold load
    rw [if_neg (by rw [hf.1]; simp)]
  · intro st pn pl e st2 hf hload
    unfold load at hload
    rw [if_neg (by rw [hf.1]; simp)] at hload
    cases hres : initThreads st pn pl.threads with
    | error p =>
        obtain ⟨e2, st3⟩ := p
        simp only [hres] at hload
        injection hload with h1 h2
        rw [← h2, initThreads_err_purge pn pl.threads st e2 st3 hres,
            purge_of_pluginFree st pn hf]
    | ok st3 =>
        simp only [hres] at hload
        injection hload with h1 h2
        exact Except.noConfusion h1
  · intro st pn pl t a hf ht ha hac
    cases hres : initThreads st pn pl.threads with
    | error p =>
        obtain ⟨e2, st3⟩ := p
        obtain ⟨a2, he2, ha2⟩ := initThreads_err_unmet pn pl.threads st e2 st3 hres
        refine ⟨a2, ?_, ha2⟩
        unfold load
        rw [if_neg (by rw [hf.1]; simp)]
        simp only [hres, he2]
    | ok st3 =>
        exact absurd (initThreads_ok_allmet pn pl.threads st st3 hres t ht a ha)
          (by rw [hac]; simp)

/-- Witness for C5: a throwing factory is rejected cleanly, and the plugin
`plW` whose thread needs the unavailable capability "gps" fails to load
with UnmetAspect, leaving the process state untouched. -/
theorem C5_all_or_nothing_witness :
    load stW none "nofactory" = (.error .LoadFailed, stW) ∧
    stW = stW ∧
    ∃ a2, (load stW (some plW) "gpsplugin").1 = .error (.UnmetAspect a2) ∧
          stW.capabilities.contains a2 = false := by
  refine ⟨C5_all_or_nothing.1 stW "nofactory" ⟨by decide, ?_, ?_, ?_⟩,
          C5_all_or_nothing.2.1 stW "gpsplugin" plW (.UnmetAspect "gps") stW
            ⟨by decide, ?_, ?_, ?_⟩ (by rfl),
          C5_all_or_nothing.2.2 stW "gpsplugin" plW
            ⟨"gpsthread", "think", ["blackboard", "gps"], [ridW], []⟩ "gps"
            ⟨by decide, ?_, ?_, ?_⟩ (by simp [plW]) (by simp) (by decide)⟩ <;>
    intro p hp <;> simp [stW] at hp

theorem applyWrites_eq_reverse_append (s : BBStore) (ws : List (RecordId × List Int)) :
    applyWrites s ws = ws.reverse ++ s := by
  induction ws generalizing s with
  | nil => simp [applyWrites]
  | cons w t ih =>
      show applyWrites (storeWrite s w) t = (w :: t).reverse ++ s
      rw [ih, storeWrite]
      simp

theorem storeGet_applyWrites (s : BBStore) (ws : List (RecordId × List Int)) (r : RecordId) :
    storeGet (applyWrites s ws) r =
      match lastWrite ws r with
      | some v => some v
      | none => storeGet s r := by
  rw [applyWrites_eq_reverse_append]
  unfold storeGet lastWrite
  rw [List.find?_append]
  cases hf : ws.reverse.find? (fun p => decide (p.1 = r)) with
  | some p => simp [Option.or]
  | none => simp [Option.or]

theorem applyWrites_append (s : BBStore) (ws1 ws2 : List (RecordId × List Int)) :
    applyWrites s (ws1 ++ ws2) = applyWrites (applyWrites s ws1) ws2 :=
  List.foldl_append _ _ _ _

theorem runPhase_eq_applyWrites (s : BBStore) (ph : List CycleThread) :
    runPhase s ph = applyWrites s (phaseWrites ph) := by
  induction ph generalizing s with
  | nil => rfl
  | cons t rest ih =>
      show runPhase (applyWrites s t.writes) rest = applyWrites s (phaseWrites (t :: rest))
      rw [ih]
      rw [show phaseWrites (t :: rest) = t.writes ++ phaseWrites rest from rfl]
      rw [applyWrites_append]

theorem stateAtPhase_succ (s : BBStore) (phases : List (List CycleThread)) (j : Nat)
    (hj : j < phases.length) :
    stateAtPhase s phases (j + 1) =
      runPhase (stateAtPhase s phases j) (phases.get ⟨j, hj⟩) := by
  unfold stateAtPhase
  rw [List.take_succ, List.foldl_append]
  have hg : phases[j]? = some (phases.get ⟨j, hj⟩) := by
    rw [List.getElem?_eq_getElem hj]
    simp [List.get_eq_getElem]
  rw [hg]
  rfl

theorem tagged_phase_le (n : Nat) (segs : List (List Ev)) (h : Tagged n segs) :
    ∀ e ∈ segs.flatten, n ≤ Ev.phase e := by
  induction h with
  | nil n => simp
  | cons n seg rest hseg hrest ih =>
      intro e he
      rw [List.flatten_cons] at he
      rcases List.mem_append.mp he with he | he
      · rw [hseg e he]
      · exact Nat.le_of_succ_le (ih e he)

theorem pairwise_const_phase (n : Nat) (seg : List Ev) (h : ∀ e ∈ seg, Ev.phase e = n) :
    seg.Pairwise (fun a b => Ev.phase a ≤ Ev.phase b) := by
  induction seg with
  | nil => exact List.Pairwise.nil
  | cons a t ih =>
      refine List.Pairwise.cons ?_ (ih (fun e he => h e (by simp [he])))
      intro b hb
      rw [h a (by simp), h b (by simp [hb])]

theorem tagged_flatten_pairwise (n : Nat) (segs : List (List Ev)) (h : Tagged n segs) :
    segs.flatten.Pairwise (fun a b => Ev.phase a ≤ Ev.phase b) := by
  induction h with
  | nil n => simp
  | cons n seg rest hseg hrest ih =>
      rw [List.flatten_cons, List.pairwise_append]
      refine ⟨pairwise_const_phase n seg hseg, ih, ?_⟩
      intro a hae b hbe
      rw [hseg a hae]
      exact Nat.le_of_succ_le_succ (Nat.succ_le_succ (Nat.le_trans (Nat.le_succ n)
        (tagged_phase_le (n + 1) rest hrest b hbe)))

/-- Claim C6: phase-barrier ordering — in a barrier-ordered cycle trace
(any within-phase interleaving of the threads' start and finish events,
phases concatenated in order) no event of a later phase ever precedes an
event of an earlier phase, so no thread of phase N+1 starts its iterate
before every thread of phase N has returned; consequently a thread of
phase j+1 observes every record write made by the threads of phase j of
the same cycle. -/
theorem C6_phase_barrier :
    (∀ (n : Nat) (segs : List (List Ev)), Tagged n segs →
        segs.flatten.Pairwise (fun a b => Ev.phase a ≤ Ev.phase b)) ∧
    (∀ (s : BBStore) (phases : List (List CycleThread)) (j : Nat)
        (hj : j < phases.length) (r : RecordId) (v : List Int),
        lastWrite (phaseWrites (phases.get ⟨j, hj⟩)) r = some v →
        storeGet (stateAtPhase s phases (j + 1)) r = some v) := by
  constructor
  · exact tagged_flatten_pairwise
  · intro s phases j hj r v hlast
    rw [stateAtPhase_succ s phases j hj, runPhase_eq_applyWrites, storeGet_applyWrites,
        hlast]

/-- Witness for C6: a two-phase trace is phase-monotone, and the think
phase of `phasesW` sees the sensor phase's write. -/
theorem C6_phase_barrier_witness :
    ([[Ev.start 0 "sensor", Ev.finish 0 "sensor"],
      [Ev.start 1 "think", Ev.finish 1 "think"]].flatten).Pairwise
        (fun a b => Ev.phase a ≤ Ev.phase b) ∧
    storeGet (stateAtPhase [] phasesW 1) ridW = some [7] := by
  constructor
  · exact C6_phase_barrier.1 0 _
      (Tagged.cons 0 _ _ (by decide)
        (Tagged.cons 1 _ _ (by decide) (Tagged.nil 2)))
  · exact C6_phase_barrier.2 [] phasesW 0 (by decide) ridW [7] (by decide)

/-- Claim C7: `open_for_reading` on a (type,id) with no record returns
Error(NotFound) and leaves the store unchanged; among all Record Store
operations, only an `open_for_writing` for that very (type,id) can bring a
record into existence. -/
theorem C7_read_no_create :
    (∀ (bb : BlackBoard) (rid : RecordId) (hash : Nat),
        findRecord bb.records rid = none →
        bb.open_for_reading rid hash = (.error .NotFound, bb)) ∧
    (∀ (bb : BlackBoard) (op : BBOp) (rid : RecordId),
        findRecord bb.records rid = none →
        (findRecord (bb.step op).records rid).isSome = true →
        ∃ hash, op = BBOp.openW rid hash) := by
  constructor
  · intro bb rid hash h
    unfold BlackBoard.open_for_reading
    rw [h]
  · intro bb op rid h0 h1
    cases op with
    | openW rid' hash =>
        refine ⟨hash, ?_⟩
        by_cases he : rid' = rid
        · rw [he]
        · exfalso
          simp only [BlackBoard.step, BlackBoard.open_for_writing] at h1
          split at h1
          · simp [h0] at h1
          · split at h1
            · split at h1
              · simp [h0] at h1
              · simp [h0] at h1
            · simp [findRecord, he, h0] at h1
    | openR rid' hash =>
        exfalso
        simp only [BlackBoard.step, BlackBoard.open_for_reading] at h1
        split at h1
        · simp [h0] at h1
        · split at h1
          · simp [h0] at h1
          · simp [h0] at h1
    | writeOp hid v =>
        exfalso
        simp only [BlackBoard.step, BlackBoard.write] at h1
        split at h1
        · simp [h0] at h1
        next h heq =>
          split at h1
          · simp [h0] at h1
          · split at h1
            · simp [h0] at h1
            next rec hfind =>
              have hne : rid ≠ h.rid := by
                intro hcontra
                rw [hcontra] at h0
                rw [h0] at hfind
                exact Option.noConfusion hfind
              simp [findRecord_setRecord_ne _ _ _ _ hne, h0] at h1
    | readOp hid =>
        exfalso
        simp only [BlackBoard.step, BlackBoard.read] at h1
        split at h1
        · simp [h0] at h1
        · split at h1
          · simp [h0] at h1
          · simp [h0] at h1
    | enq hid m =>
        exfalso
        simp only [BlackBoard.step, BlackBoard.msgq_enqueue] at h1
        split at h1
        · simp [h0] at h1
        next h heq =>
          split at h1
          · simp [h0] at h1
          next rec hfind =>
            have hne : rid ≠ h.rid := by
              intro hcontra
              rw [hcontra] at h0
              rw [h0] at hfind
              exact Option.noConfusion hfind
            simp [findRecord_setRecord_ne _ _ _ _ hne, h0] at h1
    | deq hid =>
        exfalso
        simp only [BlackBoard.step, BlackBoard.dequeue_all] at h1
        split at h1
        · simp [h0] at h1
        next h heq =>
          split at h1
          · simp [h0] at h1
          · split at h1
            · simp [h0] at h1
            next rec hfind =>
              have hne : rid ≠ h.rid := by
                intro hcontra
                rw [hcontra] at h0
                rw [h0] at hfind
                exact Option.noConfusion hfind
              simp [findRecord_setRecord_ne _ _ _ _ hne, h0] at h1
    | closeOp hid =>
        exfalso
        simp only [BlackBoard.step, BlackBoard.close] at h1
        split at h1
        · simp [h0] at h1
        next h heq =>
          split at h1
          · simp [h0] at h1
          · by_cases he : rid = h.rid
            · simp [he, findRecord_removeRecord_self] at h1
            · simp [findRecord_removeRecord_ne _ _ _ he, h0] at h1

/-- Witness for C7: reading a missing record fails with NotFound; the
record appears only after `open_for_writing` creates it. -/
theorem C7_read_no_create_witness :
    bbW.open_for_reading ⟨"Pose", "r2"⟩ 1 = (.error .NotFound, bbW) ∧
    ∃ hash, BBOp.openW ⟨"Pose", "r2"⟩ 1 = BBOp.openW ⟨"Pose", "r2"⟩ hash := by
  refine ⟨C7_read_no_create.1 bbW ⟨"Pose", "r2"⟩ 1 (by decide),
          C7_read_no_create.2 bbW (.openW ⟨"Pose", "r2"⟩ 1) ⟨"Pose", "r2"⟩
            (by decide) (by decide)⟩

/-! ### Lemmas about the SQLite configuration embedding -/

theorem get_value_typed_host (c : SQLiteConfiguration) (path t : String) (e : ConfigEntry)
    (h : findRow c.host path = some e) :
    get_value_typed c path t = get_value_typed ⟨c.host, []⟩ path t := by
  unfold get_value_typed selectValueType
  simp [h]

theorem get_value_typed_defaults (c : SQLiteConfiguration) (path t : String)
    (h : findRow c.host path = none) :
    get_value_typed c path t = get_value_typed ⟨c.defaults, []⟩ path t := by
  unfold get_value_typed selectValueType
  cases hd : findRow c.defaults path with
  | none => simp [h, hd, findRow]
  | some e => simp [h, hd, findRow]

theorem updateValue_changes_zero_iff (t : Table) (path : String) (v : SqlValue) :
    (updateValue t path v).2 = 0 ↔ findRow t path = none := by
  induction t with
  | nil => simp [updateValue, findRow]
  | cons p rest ih =>
      obtain ⟨q, e⟩ := p
      by_cases h : q = path
      · simp [updateValue, findRow, h]
      · simp [updateValue, findRow, h, ih]

theorem findRow_updateValue (t : Table) (path : String) (v : SqlValue) :
    findRow (updateValue t path v).1 path =
      (findRow t path).map (fun e => { e with value := v }) := by
  induction t with
  | nil => simp [updateValue, findRow]
  | cons p rest ih =>
      obtain ⟨q, e⟩ := p
      by_cases h : q = path
      · simp [updateValue, findRow, h]
      · simp [updateValue, findRow, h, ih]

theorem findRow_append_right (t1 t2 : Table) (path : String)
    (h : findRow t1 path = none) : findRow (t1 ++ t2) path = findRow t2 path := by
  induction t1 with
  | nil => simp
  | cons p rest ih =>
      obtain ⟨q, e⟩ := p
      by_cases hq : q = path
      · simp [findRow, hq] at h
      · simp only [findRow, List.cons_append, if_neg hq] at h ⊢
        exact ih h

theorem set_typed_insert (c : SQLiteConfiguration) (path ctype : String) (v : SqlValue)
    (h : findRow c.host path = none) :
    set_typed c path ctype v = { c with host := c.host ++ [(path, ⟨ctype, v⟩)] } := by
  unfold set_typed
  rw [if_pos ((updateValue_changes_zero_iff c.host path v).mpr h)]

theorem set_typed_update (c : SQLiteConfiguration) (path ctype : String) (v : SqlValue)
    (e : ConfigEntry) (h : findRow c.host path = some e) :
    set_typed c path ctype v = { c with host := (updateValue c.host path v).1 } := by
  unfold set_typed
  rw [if_neg (fun hz => by
    rw [(updateValue_changes_zero_iff c.host path v).mp hz] at h
    exact Option.noConfusion h)]

theorem set_get_value (c : SQLiteConfiguration) (path ctype : String) (v : SqlValue)
    (h : findRow c.host path = none ∨
         ∃ e, findRow c.host path = some e ∧ e.ctype = ctype) :
    path_exists (set_typed c path ctype v) path = true ∧
    get_value_typed (set_typed c path ctype v) path ctype = .ok ⟨ctype, v⟩ := by
  have hrow : findRow (set_typed c path ctype v).host path = some ⟨ctype, v⟩ := by
    rcases h with h | ⟨e, he, hte⟩
    · rw [set_typed_insert c path ctype v h]
      rw [show ({ c with host := c.host ++ [(path, ⟨ctype, v⟩)] } :
            SQLiteConfiguration).host = c.host ++ [(path, ⟨ctype, v⟩)] from rfl]
      rw [findRow_append_right c.host _ path h]
      simp [findRow]
    · obtain ⟨ct, val⟩ := e
      simp only at hte
      subst hte
      rw [set_typed_update c path ct v ⟨ct, val⟩ he]
      rw [show ({ c with host := (updateValue c.host path v).1 } :
            SQLiteConfiguration).host = (updateValue c.host path v).1 from rfl]
      rw [findRow_updateValue, he]
      rfl
  constructor
  · unfold path_exists selectValueType
    simp [hrow]
  · unfold get_value_typed selectValueType
    simp [hrow]

theorem uintToCInt_small (u : Nat) (h : u < 2 ^ 31) : uintToCInt u = (u : Int) := by
  unfold uintToCInt
  omega

/-- Claim C8: configuration lookup prefers host-specific values — whenever
the host `config` table has a row for the path, every typed getter behaves
as if the defaults table were absent; only when the host table has no row
for the path do the getters fall back to the `defaults.config` table. -/
theorem C8_host_over_defaults :
    (∀ (c : SQLiteConfiguration) (path : String) (e : ConfigEntry),
        findRow c.host path = some e →
        get_float c path = get_float ⟨c.host, []⟩ path ∧
        get_uint c path = get_uint ⟨c.host, []⟩ path ∧
        get_int c path = get_int ⟨c.host, []⟩ path ∧
        get_bool c path = get_bool ⟨c.host, []⟩ path ∧
        get_string c path = get_string ⟨c.host, []⟩ path) ∧
    (∀ (c : SQLiteConfiguration) (path : String),
        findRow c.host path = none →
        get_float c path = get_float ⟨c.defaults, []⟩ path ∧
        get_uint c path = get_uint ⟨c.defaults, []⟩ path ∧
        get_int c path = get_int ⟨c.defaults, []⟩ path ∧
        get_bool c path = get_bool ⟨c.defaults, []⟩ path ∧
        get_string c path = get_string ⟨c.defaults, []⟩ path) := by
  constructor
  · intro c path e h
    have hg : ∀ t, get_value_typed c path t = get_value_typed ⟨c.host, []⟩ path t :=
      fun t => get_value_typed_host c path t e h
    refine ⟨?_, ?_, ?_, ?_, ?_⟩
    · unfold get_float
      rw [hg "float"]
    · unfold get_uint
      rw [hg "unsigned int"]
    · unfold get_int
      rw [hg "int"]
    · unfold get_bool
      rw [hg "bool"]
    · unfold get_string
      rw [hg "string"]
  · intro c path h
    have hg : ∀ t, get_value_typed c path t = get_value_typed ⟨c.defaults, []⟩ path t :=
      fun t => get_value_typed_defaults c path t h
    refine ⟨?_, ?_, ?_, ?_, ?_⟩
    · unfold get_float
      rw [hg "float"]
    · unfold get_uint
      rw [hg "unsigned int"]
    · unfold get_int
      rw [hg "int"]
    · unfold get_bool
      rw [hg "bool"]
    · unfold get_string
      rw [hg "string"]

/-- Witness for C8 on concrete tables: the host row (value 7) wins over
the defaults row (value 9); with no host row the defaults row is used. -/
theorem C8_host_over_defaults_witness :
    (get_float cfgBoth "p" = get_float ⟨cfgBoth.host, []⟩ "p" ∧
     get_uint cfgBoth "p" = get_uint ⟨cfgBoth.host, []⟩ "p" ∧
     get_int cfgBoth "p" = get_int ⟨cfgBoth.host, []⟩ "p" ∧
     get_bool cfgBoth "p" = get_bool ⟨cfgBoth.host, []⟩ "p" ∧
     get_string cfgBoth "p" = get_string ⟨cfgBoth.host, []⟩ "p") ∧
    (get_float cfgDefOnly "p" = get_float ⟨cfgDefOnly.defaults, []⟩ "p" ∧
     get_uint cfgDefOnly "p" = get_uint ⟨cfgDefOnly.defaults, []⟩ "p" ∧
     get_int cfgDefOnly "p" = get_int ⟨cfgDefOnly.defaults, []⟩ "p" ∧
     get_bool cfgDefOnly "p" = get_bool ⟨cfgDefOnly.defaults, []⟩ "p" ∧
     get_string cfgDefOnly "p" = get_string ⟨cfgDefOnly.defaults, []⟩ "p") :=
  ⟨C8_host_over_defaults.1 cfgBoth "p" ⟨"int", .vint 7⟩ (by rfl),
   C8_host_over_defaults.2 cfgDefOnly "p" (by rfl)⟩

/-- Counterexample to claim C9 as stated: the host table of `cfgStrP`
stores ("p", type "string"); `set_int "p" 5` runs UPDATE, which sets only
the value column and keeps the "string" type tag, so afterwards exists is
true but `get_int` throws ConfigTypeMismatchException("p","string","int")
instead of returning 5. -/
theorem C9_counterexample :
    path_exists (set_int cfgStrP "p" 5) "p" = true ∧
    get_int (set_int cfgStrP "p" 5) "p" ≠ .ok 5 ∧
    get_int (set_int cfgStrP "p" 5) "p" = .error (.TypeMismatch "p" "string" "int") := by
  have he : get_int (set_int cfgStrP "p" 5) "p" =
      .error (.TypeMismatch "p" "string" "int") := by rfl
  exact ⟨by rfl, by rw [he]; exact fun h => Except.noConfusion h, he⟩

/-- Claim C9 (amended): the setters are upserts — after `set_T(path, v)`
returns, exists(path) is true, an existing host row is updated in place
(keeping its stored type tag) and a missing one is inserted with the
setter's type tag; the corresponding typed getter returns v provided any
pre-existing host row already has the setter's type tag (otherwise it
throws ConfigTypeMismatchException), and — for set_uint — provided the
value fits in a signed 32-bit int (it is bound through `sqlite3_bind_int`). -/
theorem C9_upsert_typed :
    (∀ (c : SQLiteConfiguration) (path : String) (i : Int),
        (findRow c.host path = none ∨
         ∃ e, findRow c.host path = some e ∧ e.ctype = "int") →
        path_exists (set_int c path i) path = true ∧
        get_int (set_int c path i) path = .ok i) ∧
    (∀ (c : SQLiteConfiguration) (path : String) (u : Nat), u < 2 ^ 31 →
        (findRow c.host path = none ∨
         ∃ e, findRow c.host path = some e ∧ e.ctype = "unsigned int") →
        path_exists (set_uint c path u) path = true ∧
        get_uint (set_uint c path u) path = .ok (u : Int)) ∧
    (∀ (c : SQLiteConfiguration) (path : String) (b : Bool),
        (findRow c.host path = none ∨
         ∃ e, findRow c.host path = some e ∧ e.ctype = "bool") →
        path_exists (set_bool c path b) path = true ∧
        get_bool (set_bool c path b) path = .ok b) ∧
    (∀ (c : SQLiteConfiguration) (path : String) (q : Rat),
        (findRow c.host path = none ∨
         ∃ e, findRow c.host path = some e ∧ e.ctype = "float") →
        path_exists (set_float c path q) path = true ∧
        get_float (set_float c path q) path = .ok q) ∧
    (∀ (c : SQLiteConfiguration) (path : String) (s : String),
        (findRow c.host path = none ∨
         ∃ e, findRow c.host path = some e ∧ e.ctype = "string") →
        path_exists (set_string c path s) path = true ∧
        get_string (set_string c path s) path = .ok s) := by
  refine ⟨?_, ?_, ?_, ?_, ?_⟩
  · intro c path i h
    obtain ⟨hex, hget⟩ := set_get_value c path "int" (.vint i) h
    refine ⟨hex, ?_⟩
    unfold get_int
    rw [show set_int c path i = set_typed c path "int" (.vint i) from rfl, hget]
    rfl
  · intro c path u hu h
    obtain ⟨hex, hget⟩ := set_get_value c path "unsigned int" (.vint (uintToCInt u)) h
    refine ⟨hex, ?_⟩
    unfold get_uint
    rw [show set_uint c path u = set_typed c path "unsigned int" (.vint (uintToCInt u))
        from rfl, hget]
    have hc : columnInt (SqlValue.vint (uintToCInt u)) = (u : Int) := by
      rw [show columnInt (SqlValue.vint (uintToCInt u)) = uintToCInt u from rfl,
          uintToCInt_small u hu]
    simp only [hc]
    rw [if_neg (by omega)]
  · intro c path b h
    obtain ⟨hex, hget⟩ := set_get_value c path "bool" (.vint (if b then 1 else 0)) h
    refine ⟨hex, ?_⟩
    unfold get_bool
    rw [show set_bool c path b = set_typed c path "bool" (.vint (if b then 1 else 0))
        from rfl, hget]
    cases b <;> rfl
  · intro c path q h
    obtain ⟨hex, hget⟩ := set_get_value c path "float" (.vreal q) h
    refine ⟨hex, ?_⟩
    unfold get_float
    rw [show set_float c path q = set_typed c path "float" (.vreal q) from rfl, hget]
    rfl
  · intro c path s h
    obtain ⟨hex, hget⟩ := set_get_value c path "string" (.vtext s) h
    refine ⟨hex, ?_⟩
    unfold get_string
    rw [show set_string c path s = set_typed c path "string" (.vtext s) from rfl, hget]
    rfl

/-- Witness for the amended C9 on concrete tables: upsert round-trips for
each type, both inserting into an empty host table and updating a row that
already has the setter's type. -/
theorem C9_upsert_typed_witness :
    (path_exists (set_int (⟨[], []⟩ : SQLiteConfiguration) "p" 5) "p" = true ∧
     get_int (set_int (⟨[], []⟩ : SQLiteConfiguration) "p" 5) "p" = .ok 5) ∧
    (path_exists (set_uint cfgNegU "u" 4) "u" = true ∧
     get_uint (set_uint cfgNegU "u" 4) "u" = .ok (4 : Int)) ∧
    (path_exists (set_bool (⟨[], []⟩ : SQLiteConfiguration) "b" true) "b" = true ∧
     get_bool (set_bool (⟨[], []⟩ : SQLiteConfiguration) "b" true) "b" = .ok true) ∧
    (path_exists (set_float (⟨[], []⟩ : SQLiteConfiguration) "f" (3 / 2)) "f" = true ∧
     get_float (set_float (⟨[], []⟩ : SQLiteConfiguration) "f" (3 / 2)) "f" = .ok (3 / 2)) ∧
    (path_exists (set_string (⟨[], []⟩ : SQLiteConfiguration) "s" "hi") "s" = true ∧
     get_string (set_string (⟨[], []⟩ : SQLiteConfiguration) "s" "hi") "s" = .ok "hi") :=
  ⟨C9_upsert_typed.1 ⟨[], []⟩ "p" 5 (Or.inl rfl),
   C9_upsert_typed.2.1 cfgNegU "u" 4 (by norm_num)
     (Or.inr ⟨⟨"unsigned int", .vint (-3)⟩, rfl, rfl⟩),
   C9_upsert_typed.2.2.1 ⟨[], []⟩ "b" true (Or.inl rfl),
   C9_upsert_typed.2.2.2.1 ⟨[], []⟩ "f" (3 / 2) (Or.inl rfl),
   C9_upsert_typed.2.2.2.2 ⟨[], []⟩ "s" "hi" (Or.inl rfl)⟩

/-- Claim C10: on an entry of type "unsigned int" whose stored value is
negative, SQLiteConfiguration::get_uint throws
ConfigTypeMismatchException(path,"int","unsigned int") while
SQLiteValueIterator::get_uint on the same row silently returns 0; neither
ever yields a negative value. -/
theorem C10_uint_negative :
    (∀ (c : SQLiteConfiguration) (path : String) (e : ConfigEntry) (b : Bool),
        selectValueType c path = some (e, b) → e.ctype = "unsigned int" →
        columnInt e.value < 0 →
        get_uint c path = .error (.TypeMismatch path "int" "unsigned int")) ∧
    (∀ (row : ConfigEntry), columnInt row.value < 0 → valueIterator_get_uint row = 0) ∧
    (∀ (c : SQLiteConfiguration) (path : String) (i : Int),
        get_uint c path = .ok i → 0 ≤ i) ∧
    (∀ (row : ConfigEntry), 0 ≤ valueIterator_get_uint row) := by
  refine ⟨?_, ?_, ?_, ?_⟩
  · intro c path e b hsel hct hneg
    unfold get_uint get_value_typed
    rw [hsel]
    simp [hct, hneg]
  · intro row h
    unfold valueIterator_get_uint
    rw [if_pos h]
  · intro c path i h
    unfold get_uint at h
    cases hv : get_value_typed c path "unsigned int" with
    | error e =>
        simp only [hv] at h
        exact Except.noConfusion h
    | ok e =>
        simp only [hv] at h
        by_cases hneg : columnInt e.value < 0
        · rw [if_pos hneg] at h
          exact absurd h (by simp)
        · rw [if_neg hneg] at h
          have h2 : (Except.ok (columnInt e.value) : Except ConfigError Int) = .ok i := h
          injection h2 with h3
          omega
  · intro row
    unfold valueIterator_get_uint
    by_cases h : columnInt row.value < 0
    · rw [if_pos h]
    · rw [if_neg h]
      omega

/-- Witness for C10 on `cfgNegU`, whose "unsigned int" row stores -3. -/
theorem C10_uint_negative_witness :
    get_uint cfgNegU "u" = .error (.TypeMismatch "u" "int" "unsigned int") ∧
    valueIterator_get_uint ⟨"unsigned int", .vint (-3)⟩ = 0 ∧
    (0 : Int) ≤ 4 ∧
    0 ≤ valueIterator_get_uint ⟨"unsigned int", .vint (-3)⟩ :=
  ⟨C10_uint_negative.1 cfgNegU "u" ⟨"unsigned int", .vint (-3)⟩ false (by rfl) (by rfl)
     (by decide),
   C10_uint_negative.2.1 ⟨"unsigned int", .vint (-3)⟩ (by decide),
   C10_uint_negative.2.2.1 cfgPosU "u" 4 (by rfl),
   C10_uint_negative.2.2.2 ⟨"unsigned int", .vint (-3)⟩⟩

end Fawkes

